import Mathlib

/-!
Shallow embedding of the reminder-scheduling subsystem of the task_manager
repository: `SmartReminderScheduler` from `src/reminders/smart_scheduler.py`
together with the reminder-related operations of `DatabaseManager` from
`src/database/models.py`.

Timestamps are modelled as integer seconds since an epoch; Python `datetime`
arithmetic (`timedelta`, `.hour`, `.minute`, `.date()`, `.replace(...)`) is
translated at one-second granularity.  SQLite tables are modelled as lists of
rows in table order; `ORDER BY reminder_time ASC` is modelled as a stable sort
by fire time.  The asynchronous delivery callback is modelled as a boolean
function saying whether delivery of a given reminder succeeds (an exception in
the Python callback corresponds to `false`).
-/

/-!
A point in time is an `Int`: seconds since the epoch (may be negative).
The helpers in the `Time` namespace translate Python `datetime` accessors.
-/

/-- Calendar day index of an instant, i.e. Python `datetime.date()` collapsed
to an integer day number: floor division by 86400. -/
def Time.day (t : Int) : Int := t.ediv 86400

/-- Second within the day, in `[0, 86400)`. -/
def Time.secOfDay (t : Int) : Int := t.emod 86400

/-- Hour of the day (`datetime.hour`), in `[0, 24)`. -/
def Time.hour (t : Int) : Int := (Time.secOfDay t).ediv 3600

/-- Minute within the hour (`datetime.minute`), in `[0, 60)`. -/
def Time.minute (t : Int) : Int := ((Time.secOfDay t).emod 3600).ediv 60

/-- Python `now.replace(hour=h, minute=m, second=0, microsecond=0)`. -/
def Time.atClock (t : Int) (h m : Int) : Int :=
  Time.day t * 86400 + h * 3600 + m * 60

/-- Python `now.replace(hour=0, minute=0, second=0)`. -/
def Time.midnight (t : Int) : Int := Time.day t * 86400

/-- The `Reminder` dataclass of `smart_scheduler.py` (queue entry).  Its
`__lt__` compares `time` only; dataclass `__eq__` compares all fields. -/
structure Reminder where
  id : Int
  task_id : Int
  user_id : Int
  time : Int
  type : String
  title : String
deriving DecidableEq

/-- A row of the `tasks` table, restricted to the columns the scheduler code
reads (`id`, `user_id`, `title`, `status`). -/
structure TaskRow where
  id : Int
  user_id : Int
  title : String
  status : String
deriving DecidableEq

/-- A row of the `reminders` table. -/
structure ReminderRow where
  id : Int
  task_id : Int
  user_id : Int
  reminder_time : Int
  reminder_type : String
  is_sent : Bool
deriving DecidableEq

/-- The SQLite database of `DatabaseManager`: the two tables the reminder
subsystem touches, plus the rowid bookkeeping behind `last_insert_rowid()`. -/
structure Database where
  tasks : List TaskRow
  reminders : List ReminderRow
  next_rowid : Int
  last_insert_rowid : Int
deriving DecidableEq

/-- Stable insertion of a reminder into a time-sorted list: the new entry goes
after every existing entry whose time is less than or equal to its own. -/
def insertSorted (r : Reminder) : List Reminder → List Reminder
  | [] => [r]
  | x :: xs => if r.time < x.time then r :: x :: xs else x :: insertSorted r xs

/-- Python `list.sort()` on a list of `Reminder`s: Timsort is a stable sort
and compares with `Reminder.__lt__`, i.e. by `time` only.  Modelled as a
stable insertion sort (each element is inserted after existing equal-time
elements, preserving input order on ties). -/
def sortQueue (l : List Reminder) : List Reminder :=
  l.foldl (fun acc r => insertSorted r acc) []

/-- Python `min` over a list of instants (`min(future_times)`); `none` when
the list is empty, where Python would raise `ValueError`. -/
def listMin : List Int → Option Int
  | [] => none
  | x :: xs =>
    match listMin xs with
    | none => some x
    | some m => some (min x m)

namespace Database

/-- DatabaseManager.add_reminder: INSERT INTO reminders (task_id, user_id,
reminder_time, reminder_type) VALUES (?, ?, ?, ?) — `is_sent` defaults to
false, the fresh rowid becomes `last_insert_rowid()`. -/
def add_reminder (db : Database) (task_id user_id : Int) (reminder_time : Int)
    (reminder_type : String) : Database :=
  { db with
    reminders := db.reminders ++
      [⟨db.next_rowid, task_id, user_id, reminder_time, reminder_type, false⟩]
    next_rowid := db.next_rowid + 1
    last_insert_rowid := db.next_rowid }

/-- DatabaseManager.get_last_reminder_id: SELECT last_insert_rowid(). -/
def get_last_reminder_id (db : Database) : Int := db.last_insert_rowid

/-- DatabaseManager.mark_reminder_sent: UPDATE reminders SET is_sent = TRUE
WHERE id = ?. -/
def mark_reminder_sent (db : Database) (reminder_id : Int) : Database :=
  { db with
    reminders := db.reminders.map fun w =>
      if w.id == reminder_id then { w with is_sent := true } else w }

/-- DatabaseManager.get_task_by_id: SELECT ... FROM tasks WHERE id = ?
(id is the primary key, so the first matching row is the row). -/
def get_task_by_id (db : Database) (task_id : Int) : Option TaskRow :=
  db.tasks.find? fun t => t.id == task_id

/-- The row set of DatabaseManager.get_future_reminders before ORDER BY:
reminders joined with their task, keeping rows with `is_sent = FALSE`,
`reminder_time` between `now + from_hours` and `now + hours`, and task status
`active`; each kept row is projected to the SELECTed columns
(id, task_id, user_id, title, reminder_type, reminder_time). -/
def futureRows (db : Database) (now : Int) (hours from_hours : Int) :
    List Reminder :=
  db.reminders.filterMap fun w =>
    (get_task_by_id db w.task_id).bind fun tk =>
      if (!w.is_sent) && decide (now + from_hours * 3600 ≤ w.reminder_time)
          && decide (w.reminder_time ≤ now + hours * 3600)
          && (tk.status == "active")
      then some ⟨w.id, w.task_id, w.user_id, w.reminder_time, w.reminder_type, tk.title⟩
      else none

/-- DatabaseManager.get_future_reminders: the joined, filtered rows ordered by
`reminder_time ASC` (modelled as a stable sort of table order). -/
def get_future_reminders (db : Database) (now : Int) (hours from_hours : Int) :
    List Reminder :=
  sortQueue (futureRows db now hours from_hours)

/-- DatabaseManager.delete_old_reminders: DELETE FROM reminders WHERE
is_sent = TRUE AND reminder_time < now - days_old; returns the updated
database and the number of deleted rows (`cursor.rowcount`). -/
def delete_old_reminders (db : Database) (now : Int) (days_old : Int) :
    Database × Nat :=
  let cutoff := now - days_old * 86400
  ({ db with
     reminders := db.reminders.filter fun w =>
       !(w.is_sent && decide (w.reminder_time < cutoff)) },
   (db.reminders.filter fun w =>
     w.is_sent && decide (w.reminder_time < cutoff)).length)

end Database

/-- The mutable state of a `SmartReminderScheduler` instance that the claims
are about: the horizon queue and the three maintenance timestamps. -/
structure SchedulerState where
  reminder_queue : List Reminder
  last_daily_reload : Option Int
  last_cleanup : Option Int
  last_config_reload : Option Int
deriving DecidableEq

/-- The state a freshly constructed scheduler starts in. -/
def initialState : SchedulerState := ⟨[], none, none, none⟩

/-- SmartReminderScheduler.load_initial_reminders at instant `now`: replaces
the queue with the 0-72h window query result (sorted) and stamps
`last_daily_reload`. -/
def load_initial_reminders (s : SchedulerState) (db : Database) (now : Int) :
    SchedulerState :=
  let future_reminders := Database.get_future_reminders db now 72 0
  { s with
    reminder_queue := sortQueue future_reminders
    last_daily_reload := some now }

/-- SmartReminderScheduler.reload_next_day_reminders at instant `now`: extends
the queue with the 48-72h window query result and re-sorts. -/
def reload_next_day_reminders (s : SchedulerState) (db : Database) (now : Int) :
    SchedulerState :=
  let new_reminders := Database.get_future_reminders db now 72 48
  { s with reminder_queue := sortQueue (s.reminder_queue ++ new_reminders) }

/-- SmartReminderScheduler.add_reminder_to_queue: appends, re-sorts, and fires
`wake_event.set()` exactly when `self.reminder_queue[0] == reminder`
(dataclass value equality).  The boolean result records whether the wake
signal was raised by this call. -/
def add_reminder_to_queue (s : SchedulerState) (reminder : Reminder) :
    SchedulerState × Bool :=
  let q := sortQueue (s.reminder_queue ++ [reminder])
  ({ s with reminder_queue := q }, decide (q.head? = some reminder))

/-- SmartReminderScheduler.should_reload_db: true when at least 24 hours have
elapsed since `last_daily_reload`; false when no initial load has happened. -/
def should_reload_db (s : SchedulerState) (now : Int) : Bool :=
  match s.last_daily_reload with
  | none => false
  | some t => decide (24 * 3600 ≤ now - t)

/-- SmartReminderScheduler.should_cleanup_db: lazily initialises
`last_cleanup` to today's midnight when unset (the returned `Int` is the
value of `last_cleanup` after that side effect), then triggers when the clock
reads 23:55 or later within hour 23 and the calendar date of `last_cleanup`
is strictly before today. -/
def should_cleanup_db (s : SchedulerState) (now : Int) : Bool × Int :=
  let last := s.last_cleanup.getD (Time.midnight now)
  (decide (Time.hour now = 23) && decide (55 ≤ Time.minute now)
     && decide (Time.day last < Time.day now),
   last)

/-- SmartReminderScheduler.should_reload_config: same date-tracking pattern at
clock 03:00-03:04. -/
def should_reload_config (s : SchedulerState) (now : Int) : Bool × Int :=
  let last := s.last_config_reload.getD (Time.midnight now)
  (decide (Time.hour now = 3) && decide (Time.minute now < 5)
     && decide (Time.day last < Time.day now),
   last)

/-- Block 1 of SmartReminderScheduler.check_daily_tasks: when the daily
reload is due, merge the 48-72h window into the queue and stamp
`last_daily_reload`. -/
def step_reload (s : SchedulerState) (db : Database) (now : Int) :
    SchedulerState :=
  if should_reload_db s now
  then { reload_next_day_reminders s db now with last_daily_reload := some now }
  else s

/-- Block 2 of SmartReminderScheduler.check_daily_tasks: when the cleanup
trigger holds, delete old sent reminders and stamp `last_cleanup := now`;
otherwise keep the (possibly lazily initialised) `last_cleanup`.  Returns the
deleted-row count (0 when the cleanup did not run). -/
def step_cleanup (s : SchedulerState) (db : Database) (now : Int) :
    SchedulerState × Database × Nat :=
  if (should_cleanup_db s now).1 then
    ({ s with last_cleanup := some now },
     (Database.delete_old_reminders db now 7).1,
     (Database.delete_old_reminders db now 7).2)
  else ({ s with last_cleanup := some (should_cleanup_db s now).2 }, db, 0)

/-- Block 3 of SmartReminderScheduler.check_daily_tasks: when the config
reload is due, stamp `last_config_reload := now` (the config re-read itself
touches no scheduler state); otherwise keep the lazily initialised stamp. -/
def step_config (s : SchedulerState) (now : Int) : SchedulerState :=
  if (should_reload_config s now).1 then { s with last_config_reload := some now }
  else { s with last_config_reload := some (should_reload_config s now).2 }

/-- SmartReminderScheduler.check_daily_tasks at instant `now`: the three
maintenance blocks in source order; returns the new scheduler state, the new
database and the number of rows deleted by the cleanup. -/
def check_daily_tasks (s : SchedulerState) (db : Database) (now : Int) :
    SchedulerState × Database × Nat :=
  let c := step_cleanup (step_reload s db now) db now
  (step_config c.1 now, c.2.1, c.2.2)

/-- The candidate wake instants built by
SmartReminderScheduler.get_next_wake_time: the head of the queue if any, the
next daily reload (`last_daily_reload + 24h`, or `now + 24h` when no reload
has ever run), the next 23:55 cleanup instant and the next 03:00 config
instant (todays or tomorrows, whichever is strictly in the future). -/
def next_wake_candidates (s : SchedulerState) (now : Int) : List Int :=
  (match s.reminder_queue.head? with
   | some r => [r.time]
   | none => []) ++
  [(match s.last_daily_reload with
    | some t => t + 24 * 3600
    | none => now + 24 * 3600),
   (let c := Time.atClock now 23 55; if c ≤ now then c + 86400 else c),
   (let c := Time.atClock now 3 0; if c ≤ now then c + 86400 else c)]

/-- SmartReminderScheduler.get_next_wake_time: the minimum of the candidates
that lie strictly in the future, or `now + 1h` when none does. -/
def get_next_wake_time (s : SchedulerState) (now : Int) : Int :=
  let future_times := (next_wake_candidates s now).filter fun t => decide (now < t)
  match listMin future_times with
  | some t => t
  | none => now + 3600

/-- Modelled from the spec (for comparison with `get_next_wake_time`): the
wake-time rule exactly as the claim words it — the minimum of the earliest
queue entry's fire time, the next daily-reload instant (last reload + 24h, or
"now" if a reload has never run), the next retention-cleanup clock instant and
the next config-reload clock instant, with `now + 1h` only when no candidate
exists. -/
def specNextWakeTime (s : SchedulerState) (now : Int) : Int :=
  let candidates :=
    (match s.reminder_queue.head? with
     | some r => [r.time]
     | none => []) ++
    [(match s.last_daily_reload with
      | some t => t + 24 * 3600
      | none => now),
     (let c := Time.atClock now 23 55; if c ≤ now then c + 86400 else c),
     (let c := Time.atClock now 3 0; if c ≤ now then c + 86400 else c)]
  match listMin candidates with
  | some t => t
  | none => now + 3600

/-- SmartReminderScheduler.process_due_reminders: pops entries from the front
of the queue while the head is due (`time ≤ now`); for each popped entry the
delivery callback runs, and only when it succeeds is the reminder marked sent
in the database (a failure is logged and the loop continues).  Returns the
popped entries in pop order, the remaining queue, and the updated database. -/
def process_due_reminders (deliver : Reminder → Bool) (now : Int) :
    List Reminder → Database → List Reminder × List Reminder × Database
  | [], db => ([], [], db)
  | r :: rest, db =>
    if r.time ≤ now then
      let db1 := if deliver r then Database.mark_reminder_sent db r.id else db
      let res := process_due_reminders deliver now rest db1
      (r :: res.1, res.2.1, res.2.2)
    else ([], r :: rest, db)

/-- SmartReminderScheduler.schedule_task_reminder at instant `now`: always
persists the reminder; when the fire time is within 72 hours and the task row
exists, also builds the queue entry from the fresh rowid and the task title
and inserts it into the queue.  The boolean result records whether the wake
signal was raised. -/
def schedule_task_reminder (s : SchedulerState) (db : Database) (now : Int)
    (task_id user_id : Int) (reminder_time : Int) (reminder_type : String) :
    SchedulerState × Database × Bool :=
  let db1 := Database.add_reminder db task_id user_id reminder_time reminder_type
  if reminder_time - now ≤ 72 * 3600 then
    match Database.get_task_by_id db1 task_id with
    | some task =>
      let reminder : Reminder :=
        { id := Database.get_last_reminder_id db1, task_id := task_id,
          user_id := user_id, time := reminder_time, type := reminder_type,
          title := task.title }
      let res := add_reminder_to_queue s reminder
      (res.1, db1, res.2)
    | none => (s, db1, false)
  else (s, db1, false)

/-- Ascending order by fire time: every adjacent pair (a, b) in the list
satisfies `a.time ≤ b.time`. -/
def QSorted (l : List Reminder) : Prop :=
  l.Pairwise fun a b => a.time ≤ b.time

instance QSorted.instDecidable (l : List Reminder) : Decidable (QSorted l) :=
  inferInstanceAs (Decidable (l.Pairwise fun a b : Reminder => a.time ≤ b.time))

/-- The database updates of one drain pass, folded over the popped entries:
each successfully delivered entry is marked sent. -/
def markAll (deliver : Reminder → Bool) (l : List Reminder) (db : Database) :
    Database :=
  l.foldl (fun d r => if deliver r then Database.mark_reminder_sent d r.id else d) db

/-! Concrete inputs used by witnesses and counterexamples. -/

/-- A queue entry firing at instant 100. -/
def exReminder100 : Reminder := ⟨1, 1, 1, 100, "deadline", "t"⟩

/-- A queue entry firing at instant 50. -/
def exReminder50 : Reminder := ⟨2, 1, 1, 50, "deadline", "t"⟩

/-- A scheduler state whose queue holds exactly `exReminder100`. -/
def exState100 : SchedulerState := ⟨[exReminder100], none, none, none⟩

/-- A database with one active task and one unsent reminder at instant 96400. -/
def exDbPastDue : Database :=
  { tasks := [⟨1, 10, "t", "active"⟩],
    reminders := [⟨1, 1, 10, 96400, "deadline", false⟩],
    next_rowid := 2, last_insert_rowid := 1 }

/-- A database with one task whose status is not active and one unsent
reminder on it at instant 5000. -/
def exDbDoneTask : Database :=
  { tasks := [⟨1, 10, "t", "done"⟩],
    reminders := [⟨1, 1, 10, 5000, "deadline", false⟩],
    next_rowid := 2, last_insert_rowid := 1 }

/-- A database with no tasks at all. -/
def exDbNoTasks : Database :=
  { tasks := [], reminders := [], next_rowid := 5, last_insert_rowid := 0 }

/-- A database holding a single sent reminder ten days in the past relative
to instant 86160. -/
def exDbOldSent : Database :=
  { tasks := [], reminders := [⟨1, 1, 1, -864000, "deadline", true⟩],
    next_rowid := 2, last_insert_rowid := 1 }

/-- A database with one active task and one unsent reminder at instant 7200,
used to exercise the in-window scheduling path. -/
def exDbOneTask : Database :=
  { tasks := [⟨1, 10, "task one", "active"⟩],
    reminders := [], next_rowid := 3, last_insert_rowid := 0 }

/-! Lemmas about the stable sort used by the queue. -/

theorem QSorted_nil : QSorted ([] : List Reminder) := List.Pairwise.nil

theorem QSorted_cons {x : Reminder} {xs : List Reminder} :
    QSorted (x :: xs) ↔ (∀ y ∈ xs, x.time ≤ y.time) ∧ QSorted xs :=
  List.pairwise_cons

theorem insertSorted_perm (r : Reminder) (l : List Reminder) :
    (insertSorted r l).Perm (r :: l) := by
  induction l with
  | nil => exact List.Perm.refl _
  | cons x xs ih =>
    simp only [insertSorted]
    split
    · exact List.Perm.refl _
    · exact ((ih.cons x).trans (List.Perm.swap r x xs))

theorem foldl_insertSorted_perm (l acc : List Reminder) :
    (List.foldl (fun acc r => insertSorted r acc) acc l).Perm (acc ++ l) := by
  induction l generalizing acc with
  | nil => simp
  | cons x xs ih =>
    simp only [List.foldl_cons]
    refine (ih (insertSorted x acc)).trans ?_
    refine (((insertSorted_perm x acc).append_right xs).trans ?_)
    exact (List.perm_middle).symm

theorem sortQueue_perm (l : List Reminder) : (sortQueue l).Perm l := by
  simpa using foldl_insertSorted_perm l []

theorem mem_sortQueue {a : Reminder} {l : List Reminder} :
    a ∈ sortQueue l ↔ a ∈ l :=
  (sortQueue_perm l).mem_iff

theorem count_sortQueue (a : Reminder) (l : List Reminder) :
    (sortQueue l).count a = l.count a :=
  (sortQueue_perm l).count_eq a

theorem QSorted_insertSorted (r : Reminder) {l : List Reminder}
    (h : QSorted l) : QSorted (insertSorted r l) := by
  induction l with
  | nil =>
    rw [insertSorted, QSorted_cons]
    exact ⟨fun y hy => absurd hy (List.not_mem_nil y), QSorted_nil⟩
  | cons x xs ih =>
    rw [QSorted_cons] at h
    obtain ⟨hx, hxs⟩ := h
    simp only [insertSorted]
    split
    · rename_i hlt
      rw [QSorted_cons]
      refine ⟨?_, QSorted_cons.mpr ⟨hx, hxs⟩⟩
      intro y hy
      rcases List.mem_cons.mp hy with rfl | hy
      · exact le_of_lt hlt
      · exact le_of_lt (lt_of_lt_of_le hlt (hx y hy))
    · rename_i hnlt
      rw [QSorted_cons]
      refine ⟨?_, ih hxs⟩
      intro y hy
      rcases List.mem_cons.mp ((insertSorted_perm r xs).mem_iff.mp hy) with rfl | hy
      · exact le_of_not_lt hnlt
      · exact hx y hy

theorem QSorted_foldl_insertSorted (l : List Reminder) {acc : List Reminder}
    (h : QSorted acc) :
    QSorted (List.foldl (fun acc r => insertSorted r acc) acc l) := by
  induction l generalizing acc with
  | nil => exact h
  | cons x xs ih => exact ih (QSorted_insertSorted x h)

theorem QSorted_sortQueue (l : List Reminder) : QSorted (sortQueue l) :=
  QSorted_foldl_insertSorted l QSorted_nil

theorem insertSorted_eq_append {r : Reminder} {l : List Reminder}
    (h : ∀ x ∈ l, x.time ≤ r.time) : insertSorted r l = l ++ [r] := by
  induction l with
  | nil => rfl
  | cons x xs ih =>
    have hx : x.time ≤ r.time := h x (by simp)
    simp only [insertSorted, if_neg (not_lt_of_le hx)]
    rw [ih fun y hy => h y (by simp [hy])]
    simp

theorem foldl_insertSorted_eq_append (l : List Reminder) :
    ∀ acc : List Reminder, QSorted (acc ++ l) →
      List.foldl (fun acc r => insertSorted r acc) acc l = acc ++ l := by
  induction l with
  | nil => intro acc _; simp
  | cons x xs ih =>
    intro acc h
    have hle : ∀ y ∈ acc, y.time ≤ x.time := by
      intro y hy
      exact (List.pairwise_append.mp h).2.2 y hy x (by simp)
    simp only [List.foldl_cons]
    rw [insertSorted_eq_append hle, ih (acc ++ [x]) (by simpa using h)]
    simp

theorem sortQueue_eq_self {l : List Reminder} (h : QSorted l) :
    sortQueue l = l := by
  simpa using foldl_insertSorted_eq_append l [] (by simpa using h)

theorem sortQueue_append_singleton (l : List Reminder) (r : Reminder) :
    sortQueue (l ++ [r]) = insertSorted r (sortQueue l) := by
  simp [sortQueue, List.foldl_append]

theorem filter_insertSorted_of_ne {r : Reminder} {t : Int}
    (h : ¬ r.time = t) (l : List Reminder) :
    (insertSorted r l).filter (fun x => x.time == t) =
      l.filter (fun x => x.time == t) := by
  induction l with
  | nil => simp [insertSorted, h]
  | cons x xs ih =>
    simp only [insertSorted]
    split
    · simp [List.filter_cons, h]
    · simp only [List.filter_cons, ih]

theorem filter_insertSorted_of_eq {r : Reminder} {t : Int}
    (h : r.time = t) {l : List Reminder} (hs : QSorted l) :
    (insertSorted r l).filter (fun x => x.time == t) =
      l.filter (fun x => x.time == t) ++ [r] := by
  induction l with
  | nil => simp [insertSorted, h]
  | cons x xs ih =>
    rw [QSorted_cons] at hs
    obtain ⟨hx, hxs⟩ := hs
    simp only [insertSorted]
    split
    · rename_i hlt
      have h1 : t < x.time := h ▸ hlt
      have hnone : ∀ y ∈ x :: xs, ¬ (y.time == t) = true := by
        intro y hy
        rcases List.mem_cons.mp hy with rfl | hy
        · simp only [beq_iff_eq]
          exact fun hEq => lt_irrefl t (hEq ▸ h1)
        · simp only [beq_iff_eq]
          have h2 : t < y.time := lt_of_lt_of_le h1 (hx y hy)
          exact fun hEq => lt_irrefl t (hEq ▸ h2)
      have hxs0 : (x :: xs).filter (fun y => y.time == t) = [] :=
        List.filter_eq_nil_iff.mpr hnone
      simp [List.filter_cons, h, hxs0]
    · simp only [List.filter_cons, ih hxs]
      split <;> simp

theorem filter_sortQueue (l : List Reminder) (t : Int) :
    (sortQueue l).filter (fun x => x.time == t) =
      l.filter (fun x => x.time == t) := by
  suffices h : ∀ acc : List Reminder, QSorted acc →
      (List.foldl (fun acc r => insertSorted r acc) acc l).filter
          (fun x => x.time == t) =
        acc.filter (fun x => x.time == t) ++ l.filter (fun x => x.time == t) by
    simpa using h [] QSorted_nil
  induction l with
  | nil => intro acc _; simp
  | cons x xs ih =>
    intro acc hacc
    simp only [List.foldl_cons]
    rw [ih (insertSorted x acc) (QSorted_insertSorted x hacc)]
    by_cases hx : x.time = t
    · rw [filter_insertSorted_of_eq hx hacc]
      simp [List.filter_cons, hx]
    · rw [filter_insertSorted_of_ne hx acc]
      simp [List.filter_cons, hx]

theorem head_insertSorted {r : Reminder} {q : List Reminder} (h : QSorted q) :
    (insertSorted r q).head? = some r ↔
      (∀ x ∈ q, r.time < x.time) ∨ q.head? = some r := by
  cases q with
  | nil => simp [insertSorted]
  | cons x xs =>
    rw [QSorted_cons] at h
    obtain ⟨hx, _⟩ := h
    simp only [insertSorted]
    split
    · rename_i hlt
      constructor
      · intro _
        left
        intro y hy
        rcases List.mem_cons.mp hy with rfl | hy
        · exact hlt
        · exact lt_of_lt_of_le hlt (hx y hy)
      · intro _
        rfl
    · rename_i hnlt
      simp only [List.head?_cons, Option.some.injEq]
      constructor
      · intro hxr
        right
        exact hxr
      · rintro (hall | hxr)
        · exact absurd (hall x (by simp)) hnlt
        · exact hxr

/-! Lemmas about the minimum over candidate instants. -/

theorem listMin_ne_none {x : Int} {xs : List Int} :
    listMin (x :: xs) ≠ none := by
  rw [listMin]
  cases listMin xs <;> simp

theorem listMin_mem : ∀ {l : List Int} {m : Int}, listMin l = some m → m ∈ l := by
  intro l
  induction l with
  | nil => intro m h; cases h
  | cons x xs ih =>
    intro m h
    rw [listMin] at h
    cases hxs : listMin xs with
    | none => rw [hxs] at h; cases h; simp
    | some m0 =>
      rw [hxs] at h
      cases h
      rcases min_choice x m0 with hc | hc
      · rw [hc]; simp
      · rw [hc]
        exact List.mem_cons_of_mem x (ih hxs)

theorem listMin_le : ∀ {l : List Int} {m : Int}, listMin l = some m →
    ∀ x ∈ l, m ≤ x := by
  intro l
  induction l with
  | nil => intro m h; cases h
  | cons x xs ih =>
    intro m h y hy
    rw [listMin] at h
    cases hxs : listMin xs with
    | none =>
      rw [hxs] at h
      cases xs with
      | nil =>
        cases h
        have hyx : y = x := by simpa using hy
        simp [hyx]
      | cons a as => exact absurd hxs listMin_ne_none
    | some m0 =>
      rw [hxs] at h
      cases h
      rcases List.mem_cons.mp hy with h1 | hy
      · rw [h1]; exact min_le_left x m0
      · exact le_trans (min_le_right x m0) (ih hxs y hy)

/-! Lemmas about the dispatch loop `process_due_reminders`. -/

theorem process_due_eq (deliver : Reminder → Bool) (now : Int) :
    ∀ (q : List Reminder) (db : Database),
      process_due_reminders deliver now q db =
        (q.takeWhile (fun r => decide (r.time ≤ now)),
         q.dropWhile (fun r => decide (r.time ≤ now)),
         markAll deliver (q.takeWhile (fun r => decide (r.time ≤ now))) db) := by
  intro q
  induction q with
  | nil => intro db; rfl
  | cons r rest ih =>
    intro db
    by_cases hr : r.time ≤ now
    · simp only [process_due_reminders, if_pos hr, ih]
      simp [List.takeWhile_cons, List.dropWhile_cons, hr, markAll]
    · simp only [process_due_reminders, if_neg hr]
      simp [List.takeWhile_cons, List.dropWhile_cons, hr, markAll]

theorem markAll_reminders (deliver : Reminder → Bool) :
    ∀ (l : List Reminder) (db : Database),
      (markAll deliver l db).reminders = db.reminders.map fun w =>
        if l.any (fun r => deliver r && (w.id == r.id)) then
          { w with is_sent := true } else w := by
  intro l
  induction l with
  | nil => intro db; simp [markAll]
  | cons r rest ih =>
    intro db
    rw [markAll, List.foldl_cons]
    by_cases hd : deliver r
    · rw [if_pos hd]
      have hfold : List.foldl
          (fun d r => if deliver r then Database.mark_reminder_sent d r.id else d)
          (Database.mark_reminder_sent db r.id) rest =
          markAll deliver rest (Database.mark_reminder_sent db r.id) := rfl
      rw [hfold, ih]
      rw [Database.mark_reminder_sent, List.map_map]
      apply List.map_congr_left
      intro w _
      simp only [Function.comp]
      by_cases hid : w.id = r.id
      · simp [hid, hd]
      · have hid2 : (w.id == r.id) = false := by simp [hid]
        simp [List.any_cons, hid2, hd]
    · rw [if_neg hd]
      have hfold : List.foldl
          (fun d r => if deliver r then Database.mark_reminder_sent d r.id else d)
          db rest = markAll deliver rest db := rfl
      rw [hfold, ih]
      apply List.map_congr_left
      intro w _
      simp [List.any_cons, hd]

theorem takeWhile_eq_filter_of_sorted {now : Int} {q : List Reminder}
    (h : QSorted q) :
    q.takeWhile (fun r => decide (r.time ≤ now)) =
      q.filter (fun r => decide (r.time ≤ now)) := by
  induction q with
  | nil => rfl
  | cons x xs ih =>
    rw [QSorted_cons] at h
    obtain ⟨hx, hxs⟩ := h
    by_cases hdue : x.time ≤ now
    · simp [List.takeWhile_cons, List.filter_cons, hdue, ih hxs]
    · have hnone : ∀ y ∈ x :: xs, ¬ (decide (y.time ≤ now)) = true := by
        intro y hy
        rcases List.mem_cons.mp hy with rfl | hy
        · simpa using hdue
        · simp only [decide_eq_true_eq]
          intro hc
          exact hdue (le_trans (hx y hy) hc)
      rw [List.filter_eq_nil_iff.mpr hnone]
      simp [List.takeWhile_cons, hdue]

theorem QSorted_takeWhile {q : List Reminder} (p : Reminder → Bool)
    (h : QSorted q) : QSorted (q.takeWhile p) :=
  List.Pairwise.sublist (List.takeWhile_sublist p) h

theorem QSorted_dropWhile {q : List Reminder} (p : Reminder → Bool)
    (h : QSorted q) : QSorted (q.dropWhile p) :=
  List.Pairwise.sublist (List.dropWhile_sublist p) h

/-! Lemmas about clock instants and the wake-time computation. -/

theorem clock_candidate_future (now : Int) {h m : Int}
    (hoff : 0 ≤ h * 3600 + m * 60) :
    now < (if Time.atClock now h m ≤ now then Time.atClock now h m + 86400
           else Time.atClock now h m) := by
  have hde : 86400 * (now.ediv 86400) + now.emod 86400 = now :=
    Int.ediv_add_emod now 86400
  have hlt : now.emod 86400 < 86400 := Int.emod_lt_of_pos now (by norm_num)
  have hge : 0 ≤ now.emod 86400 := Int.emod_nonneg now (by norm_num)
  have hatc : Time.atClock now h m = now.ediv 86400 * 86400 + h * 3600 + m * 60 :=
    rfl
  by_cases hc : Time.atClock now h m ≤ now
  · rw [if_pos hc, hatc]
    omega
  · rw [if_neg hc]
    omega

theorem get_next_wake_time_eq {s : SchedulerState} {now m : Int}
    (hm : listMin ((next_wake_candidates s now).filter fun t => decide (now < t)) =
      some m) :
    get_next_wake_time s now = m := by
  simp only [get_next_wake_time, hm]

theorem cleanup_candidate_mem (s : SchedulerState) (now : Int) :
    (if Time.atClock now 23 55 ≤ now then Time.atClock now 23 55 + 86400
     else Time.atClock now 23 55) ∈ next_wake_candidates s now := by
  unfold next_wake_candidates
  apply List.mem_append_right
  simp

/-! Membership characterization of the window query. -/

theorem mem_futureRows {db : Database} {now : Int} {hours from_hours : Int}
    {rem : Reminder} :
    rem ∈ Database.futureRows db now hours from_hours ↔
      ∃ w ∈ db.reminders, ∃ tk : TaskRow,
        Database.get_task_by_id db w.task_id = some tk ∧
        w.is_sent = false ∧
        now + from_hours * 3600 ≤ w.reminder_time ∧
        w.reminder_time ≤ now + hours * 3600 ∧
        tk.status = "active" ∧
        rem = ⟨w.id, w.task_id, w.user_id, w.reminder_time, w.reminder_type, tk.title⟩ := by
  unfold Database.futureRows
  rw [List.mem_filterMap]
  constructor
  · rintro ⟨w, hw, hf⟩
    cases htk : Database.get_task_by_id db w.task_id with
    | none => rw [htk] at hf; cases hf
    | some tk =>
      rw [htk, Option.some_bind] at hf
      by_cases hc : ((!w.is_sent) && decide (now + from_hours * 3600 ≤ w.reminder_time)
          && decide (w.reminder_time ≤ now + hours * 3600)
          && (tk.status == "active")) = true
      · rw [if_pos hc] at hf
        simp only [Bool.and_eq_true, Bool.not_eq_true', decide_eq_true_eq,
          beq_iff_eq] at hc
        obtain ⟨⟨⟨h1, h2⟩, h3⟩, h4⟩ := hc
        exact ⟨w, hw, tk, htk, h1, h2, h3, h4, (Option.some.inj hf).symm⟩
      · rw [if_neg hc] at hf
        cases hf
  · rintro ⟨w, hw, tk, htk, h1, h2, h3, h4, hrem⟩
    refine ⟨w, hw, ?_⟩
    have hc : ((!w.is_sent) && decide (now + from_hours * 3600 ≤ w.reminder_time)
        && decide (w.reminder_time ≤ now + hours * 3600)
        && (tk.status == "active")) = true := by
      simp only [Bool.and_eq_true, Bool.not_eq_true', decide_eq_true_eq, beq_iff_eq]
      exact ⟨⟨⟨h1, h2⟩, h3⟩, h4⟩
    rw [htk, Option.some_bind, if_pos hc, hrem]

theorem mem_get_future_reminders {db : Database} {now : Int}
    {hours from_hours : Int} {rem : Reminder} :
    rem ∈ Database.get_future_reminders db now hours from_hours ↔
      ∃ w ∈ db.reminders, ∃ tk : TaskRow,
        Database.get_task_by_id db w.task_id = some tk ∧
        w.is_sent = false ∧
        now + from_hours * 3600 ≤ w.reminder_time ∧
        w.reminder_time ≤ now + hours * 3600 ∧
        tk.status = "active" ∧
        rem = ⟨w.id, w.task_id, w.user_id, w.reminder_time, w.reminder_type, tk.title⟩ := by
  unfold Database.get_future_reminders
  rw [mem_sortQueue]
  exact mem_futureRows

/-! Lemmas about dates and the maintenance triggers. -/

theorem day_midnight (t : Int) : Time.day (Time.midnight t) = Time.day t := by
  unfold Time.midnight Time.day
  exact Int.mul_ediv_cancel _ (by norm_num)

theorem should_cleanup_db_congr {s1 s : SchedulerState} (now : Int)
    (h : s1.last_cleanup = s.last_cleanup) :
    should_cleanup_db s1 now = should_cleanup_db s now := by
  unfold should_cleanup_db
  rw [h]

theorem get_task_by_id_add_reminder (db : Database) (a b : Int) (c : Int)
    (d : String) (e : Int) :
    Database.get_task_by_id (Database.add_reminder db a b c d) e =
      Database.get_task_by_id db e := rfl

theorem step_reload_last_cleanup (s : SchedulerState) (db : Database)
    (now : Int) : (step_reload s db now).last_cleanup = s.last_cleanup := by
  unfold step_reload
  split <;> rfl

theorem step_config_last_cleanup (s : SchedulerState) (now : Int) :
    (step_config s now).last_cleanup = s.last_cleanup := by
  unfold step_config
  split <;> rfl

theorem schedule_db_eq (s : SchedulerState) (db : Database)
    (now tid uid rt : Int) (ty : String) :
    (schedule_task_reminder s db now tid uid rt ty).2.1 =
      Database.add_reminder db tid uid rt ty := by
  simp only [schedule_task_reminder]
  split
  · split <;> rfl
  · rfl

theorem schedule_eq_of_task (s : SchedulerState) (db : Database)
    (now tid uid rt : Int) (ty : String) (tk : TaskRow)
    (h72 : rt - now ≤ 72 * 3600)
    (htk : Database.get_task_by_id db tid = some tk) :
    schedule_task_reminder s db now tid uid rt ty =
      ((add_reminder_to_queue s ⟨db.next_rowid, tid, uid, rt, ty, tk.title⟩).1,
       Database.add_reminder db tid uid rt ty,
       (add_reminder_to_queue s ⟨db.next_rowid, tid, uid, rt, ty, tk.title⟩).2) := by
  have htk1 : Database.get_task_by_id (Database.add_reminder db tid uid rt ty) tid =
      some tk := htk
  simp only [schedule_task_reminder, if_pos h72]
  split
  · rename_i task heq
    rw [htk1] at heq
    cases heq
    rfl
  · rename_i heq
    rw [htk1] at heq
    cases heq

theorem schedule_eq_no_task (s : SchedulerState) (db : Database)
    (now tid uid rt : Int) (ty : String)
    (h72 : rt - now ≤ 72 * 3600)
    (htk : Database.get_task_by_id db tid = none) :
    schedule_task_reminder s db now tid uid rt ty =
      (s, Database.add_reminder db tid uid rt ty, false) := by
  have htk1 : Database.get_task_by_id (Database.add_reminder db tid uid rt ty) tid =
      none := htk
  simp only [schedule_task_reminder, if_pos h72]
  split
  · rename_i task heq
    rw [htk1] at heq
    cases heq
  · rfl

theorem schedule_eq_far (s : SchedulerState) (db : Database)
    (now tid uid rt : Int) (ty : String)
    (h72 : ¬ rt - now ≤ 72 * 3600) :
    schedule_task_reminder s db now tid uid rt ty =
      (s, Database.add_reminder db tid uid rt ty, false) := by
  simp only [schedule_task_reminder, if_neg h72]

/-! Claim theorems. -/

/-- C2: during a drain pass a store row is marked sent exactly when some due
entry with its id was successfully delivered; a row whose delivery failed is
left untouched (never marked sent), and the whole due prefix is still popped
and processed even when earlier deliveries in the same pass fail. -/
theorem C2_mark_sent_iff_delivered (deliver : Reminder → Bool) (now : Int)
    (q : List Reminder) (db : Database) :
    (process_due_reminders deliver now q db).2.2.reminders =
      db.reminders.map (fun w =>
        if (q.takeWhile fun r => decide (r.time ≤ now)).any
            (fun r => deliver r && (w.id == r.id))
        then { w with is_sent := true } else w) ∧
    (process_due_reminders deliver now q db).1 =
      q.takeWhile fun r => decide (r.time ≤ now) := by
  rw [process_due_eq]
  exact ⟨markAll_reminders deliver _ db, rfl⟩

/-- C5: after each of the three horizon-queue mutations (startup load, single
insert, daily-reload merge) the queue is sorted ascending by fire time, and
for any fixed fire time the subsequence of entries at that time equals the
corresponding subsequence of the insertion-ordered input (stable ties). -/
theorem C5_queue_sorted_and_stable (s : SchedulerState) (db : Database)
    (now : Int) (r : Reminder) (t : Int) :
    QSorted (load_initial_reminders s db now).reminder_queue ∧
    QSorted (add_reminder_to_queue s r).1.reminder_queue ∧
    QSorted (reload_next_day_reminders s db now).reminder_queue ∧
    (add_reminder_to_queue s r).1.reminder_queue.filter (fun x => x.time == t) =
      (s.reminder_queue ++ [r]).filter (fun x => x.time == t) ∧
    (reload_next_day_reminders s db now).reminder_queue.filter
        (fun x => x.time == t) =
      (s.reminder_queue ++ Database.get_future_reminders db now 72 48).filter
        (fun x => x.time == t) ∧
    (load_initial_reminders s db now).reminder_queue.filter
        (fun x => x.time == t) =
      (Database.futureRows db now 72 0).filter (fun x => x.time == t) :=
  ⟨QSorted_sortQueue _, QSorted_sortQueue _, QSorted_sortQueue _,
   filter_sortQueue _ t, filter_sortQueue _ t,
   (filter_sortQueue (sortQueue (Database.futureRows db now 72 0)) t).trans
     (filter_sortQueue (Database.futureRows db now 72 0) t)⟩

/-- C8: the drain pass removes and returns exactly the prefix of the queue
that is due (`fire time ≤ now`), leaving the rest as the untouched suffix;
on a sorted queue the popped prefix is exactly all due entries (in ascending
order) and both the popped part and the remainder are sorted; on an empty
queue it returns empty without effect. -/
theorem C8_drain_due_entries (deliver : Reminder → Bool) (now : Int)
    (q : List Reminder) (db : Database) :
    (process_due_reminders deliver now q db).1 =
      q.takeWhile (fun r => decide (r.time ≤ now)) ∧
    (process_due_reminders deliver now q db).2.1 =
      q.dropWhile (fun r => decide (r.time ≤ now)) ∧
    (QSorted q →
      (process_due_reminders deliver now q db).1 =
        q.filter (fun r => decide (r.time ≤ now)) ∧
      QSorted (process_due_reminders deliver now q db).1 ∧
      QSorted (process_due_reminders deliver now q db).2.1) ∧
    process_due_reminders deliver now [] db = ([], [], db) := by
  rw [process_due_eq]
  refine ⟨rfl, rfl, ?_, rfl⟩
  intro hq
  exact ⟨takeWhile_eq_filter_of_sorted hq, QSorted_takeWhile _ hq,
    QSorted_dropWhile _ hq⟩

/-- C8 witness: on the concrete sorted queue [50, 100] at now = 60 the popped
part is exactly the due entries. -/
theorem C8_witness :
    QSorted [exReminder50, exReminder100] ∧
    (process_due_reminders (fun _ => true) 60 [exReminder50, exReminder100]
        exDbNoTasks).1 =
      List.filter (fun r => decide (r.time ≤ 60)) [exReminder50, exReminder100] :=
  ⟨by decide,
   ((C8_drain_due_entries (fun _ => true) 60 [exReminder50, exReminder100]
      exDbNoTasks).2.2.1 (by decide)).1⟩

/-- C3 counterexample: inserting an entry value-equal to the sole entry
already in the queue raises the wake signal although its fire time is not
strictly earlier than every previously queued entry and the queue was not
empty — so "signal iff strictly earlier than every previous entry (or
empty)" fails as stated. -/
theorem C3_counterexample :
    (add_reminder_to_queue exState100 exReminder100).2 = true ∧
    ¬(exState100.reminder_queue = [] ∨
      ∀ x ∈ exState100.reminder_queue, exReminder100.time < x.time) := by
  decide

/-- C3 (amended): on a sorted queue, the insert raises the wake signal iff
the new entry's fire time is strictly earlier than that of every entry
previously in the queue (vacuously, when the queue was empty), or the head
of the previous queue is value-equal to the inserted entry (dataclass
equality, the case the original claim misses). -/
theorem C3_signal_iff_new_head (s : SchedulerState) (r : Reminder)
    (h : QSorted s.reminder_queue) :
    (add_reminder_to_queue s r).2 = true ↔
      (∀ x ∈ s.reminder_queue, r.time < x.time) ∨
        s.reminder_queue.head? = some r := by
  have hq : (add_reminder_to_queue s r).2 =
      decide ((sortQueue (s.reminder_queue ++ [r])).head? = some r) := rfl
  rw [hq, decide_eq_true_eq, sortQueue_append_singleton, sortQueue_eq_self h]
  exact head_insertSorted h

/-- C3 witness: inserting an entry at time 50 ahead of a sorted queue whose
only entry fires at 100 raises the signal. -/
theorem C3_witness : (add_reminder_to_queue exState100 exReminder50).2 = true :=
  (C3_signal_iff_new_head exState100 exReminder50 (by decide)).mpr
    (Or.inl (by decide))

/-- C4 counterexample: with an empty queue and no reload ever run, at noon of
day 0 (now = 43200) the claim's formula (whose daily-reload candidate is
"now" itself when no reload has run, with no strict-future filtering) yields
43200, while the code returns 86100 (today's 23:55): the claimed equality
fails. -/
theorem C4_counterexample :
    get_next_wake_time initialState 43200 = 86100 ∧
    specNextWakeTime initialState 43200 = 43200 ∧
    (86100 : Int) ≠ 43200 := by
  decide

/-- C4 (amended): the computed wake instant is strictly in the future, is one
of the four candidates (earliest queue entry's fire time; last reload + 24h,
or now + 24h — not "now" — when no reload ever ran; next 23:55 instant; next
03:00 instant), and is a lower bound of every strictly-future candidate: it
is the minimum of the strictly-future candidates, and the now + 1h fallback
is unreachable since the next-23:55 candidate is always strictly future. -/
theorem C4_wake_time_minimum (s : SchedulerState) (now : Int) :
    now < get_next_wake_time s now ∧
    get_next_wake_time s now ∈ next_wake_candidates s now ∧
    ∀ c ∈ next_wake_candidates s now, now < c → get_next_wake_time s now ≤ c := by
  have hclean : now < (if Time.atClock now 23 55 ≤ now
      then Time.atClock now 23 55 + 86400 else Time.atClock now 23 55) :=
    clock_candidate_future now (by norm_num)
  have hmemf : (if Time.atClock now 23 55 ≤ now
      then Time.atClock now 23 55 + 86400 else Time.atClock now 23 55) ∈
      (next_wake_candidates s now).filter (fun t => decide (now < t)) :=
    List.mem_filter.mpr ⟨cleanup_candidate_mem s now, by simpa using hclean⟩
  obtain ⟨m, hm⟩ : ∃ m, listMin
      ((next_wake_candidates s now).filter fun t => decide (now < t)) = some m := by
    cases hf : (next_wake_candidates s now).filter (fun t => decide (now < t)) with
    | nil => rw [hf] at hmemf; cases hmemf
    | cons a as =>
      cases hlm : listMin (a :: as) with
      | none => exact absurd hlm listMin_ne_none
      | some m0 => exact ⟨m0, rfl⟩
  rw [get_next_wake_time_eq hm]
  have hmf := List.mem_filter.mp (listMin_mem hm)
  refine ⟨by simpa using hmf.2, hmf.1, ?_⟩
  intro c hc hcf
  exact listMin_le hm c (List.mem_filter.mpr ⟨hc, by simpa using hcf⟩)

/-- C4 witness: at now = 43200 with the fresh state, 86100 is a strictly
future candidate and the computed wake time is at most 86100. -/
theorem C4_witness :
    ((86100 : Int) ∈ next_wake_candidates initialState 43200 ∧
      (43200 : Int) < 86100) ∧
    get_next_wake_time initialState 43200 ≤ 86100 :=
  ⟨⟨by decide, by decide⟩,
   (C4_wake_time_minimum initialState 43200).2.2 86100 (by decide) (by decide)⟩

/-- C6 counterexample: a store holding one unsent reminder inside the window
whose task row exists but has status "done": the startup load yields an
empty queue although the claimed result set (all unsent reminders with fire
time in the window, regardless of task status) is nonempty. -/
theorem C6_counterexample :
    (load_initial_reminders initialState exDbDoneTask 0).reminder_queue = [] ∧
    exDbDoneTask.reminders.filter
      (fun w => !w.is_sent && decide (0 ≤ w.reminder_time) &&
        decide (w.reminder_time ≤ 259200)) ≠ [] := by
  decide

/-- C6 (amended): the startup load replaces the queue, sorted ascending by
fire time, with exactly those unsent reminders whose fire time lies in
[now, now + 72h] AND whose referenced task exists with status "active"
(each projected to a queue entry carrying the task's title). -/
theorem C6_window_load_exact (s : SchedulerState) (db : Database) (now : Int) :
    QSorted (load_initial_reminders s db now).reminder_queue ∧
    ∀ rem : Reminder,
      rem ∈ (load_initial_reminders s db now).reminder_queue ↔
        ∃ w ∈ db.reminders, ∃ tk : TaskRow,
          Database.get_task_by_id db w.task_id = some tk ∧
          w.is_sent = false ∧ now ≤ w.reminder_time ∧
          w.reminder_time ≤ now + 259200 ∧ tk.status = "active" ∧
          rem = ⟨w.id, w.task_id, w.user_id, w.reminder_time, w.reminder_type,
            tk.title⟩ := by
  refine ⟨QSorted_sortQueue _, ?_⟩
  intro rem
  have hiff : rem ∈ (load_initial_reminders s db now).reminder_queue ↔
      rem ∈ Database.get_future_reminders db now 72 0 := mem_sortQueue
  rw [hiff, mem_get_future_reminders]
  constructor
  · rintro ⟨w, hw, tk, htk, h1, h2, h3, h4, h5⟩
    exact ⟨w, hw, tk, htk, h1, by omega, by omega, h4, h5⟩
  · rintro ⟨w, hw, tk, htk, h1, h2, h3, h4, h5⟩
    exact ⟨w, hw, tk, htk, h1, by omega, by omega, h4, h5⟩

/-- C6 witness: loading the store with an active task and an unsent reminder
at 96400 in the window starting at 90000 puts the projected entry in the
queue. -/
theorem C6_witness :
    (⟨1, 1, 10, 96400, "deadline", "t"⟩ : Reminder) ∈
      (load_initial_reminders initialState exDbPastDue 90000).reminder_queue :=
  ((C6_window_load_exact initialState exDbPastDue 90000).2 _).mpr
    ⟨⟨1, 1, 10, 96400, "deadline", false⟩, by decide, ⟨1, 10, "t", "active"⟩,
      by decide, rfl, by decide, by decide, rfl, rfl⟩

/-- C7 counterexample: scheduling a reminder one hour ahead (within the 72h
window) against a store with no task row persists the reminder but inserts
nothing into the queue, so the new reminder does not appear in the horizon
queue exactly once as claimed. -/
theorem C7_counterexample :
    ((3600 : Int) - 0 ≤ 72 * 3600) ∧
    (schedule_task_reminder initialState exDbNoTasks 0 1 1 3600
      "deadline").2.1.reminders ≠ [] ∧
    (schedule_task_reminder initialState exDbNoTasks 0 1 1 3600
      "deadline").1.reminder_queue = [] ∧
    ((schedule_task_reminder initialState exDbNoTasks 0 1 1 3600
      "deadline").1.reminder_queue.countP (fun r => r.id == 5)) = 0 := by
  decide

/-- C7 (amended): every schedule call persists the reminder row; when the
fire time is at most now + 72h and the store holds a task row for the task
id, the projected entry is inserted into the queue — its multiplicity grows
by one, hence it appears exactly once provided it was not already present
(ids are fresh in real executions); when the fire time is strictly beyond
now + 72h the scheduler state is left unchanged and no signal is raised. -/
theorem C7_schedule_window (s : SchedulerState) (db : Database)
    (now tid uid rt : Int) (ty : String) :
    (schedule_task_reminder s db now tid uid rt ty).2.1.reminders =
      db.reminders ++ [⟨db.next_rowid, tid, uid, rt, ty, false⟩] ∧
    (rt - now ≤ 72 * 3600 →
      ∀ tk : TaskRow, Database.get_task_by_id db tid = some tk →
        ((schedule_task_reminder s db now tid uid rt ty).1.reminder_queue.count
            ⟨db.next_rowid, tid, uid, rt, ty, tk.title⟩ =
          s.reminder_queue.count ⟨db.next_rowid, tid, uid, rt, ty, tk.title⟩ + 1) ∧
        ((⟨db.next_rowid, tid, uid, rt, ty, tk.title⟩ : Reminder) ∉
            s.reminder_queue →
          (schedule_task_reminder s db now tid uid rt ty).1.reminder_queue.count
            ⟨db.next_rowid, tid, uid, rt, ty, tk.title⟩ = 1)) ∧
    (¬ rt - now ≤ 72 * 3600 →
      (schedule_task_reminder s db now tid uid rt ty).1 = s ∧
      (schedule_task_reminder s db now tid uid rt ty).2.2 = false) := by
  refine ⟨?_, ?_, ?_⟩
  · rw [schedule_db_eq]
    rfl
  · intro h72 tk htk
    rw [schedule_eq_of_task s db now tid uid rt ty tk h72 htk]
    have hq : (add_reminder_to_queue s
        ⟨db.next_rowid, tid, uid, rt, ty, tk.title⟩).1.reminder_queue =
        sortQueue (s.reminder_queue ++
          [⟨db.next_rowid, tid, uid, rt, ty, tk.title⟩]) := rfl
    constructor
    · rw [hq, count_sortQueue]
      simp [List.count_append]
    · intro hnot
      rw [hq, count_sortQueue]
      simp [List.count_append, List.count_eq_zero.mpr hnot]
  · intro h72
    rw [schedule_eq_far s db now tid uid rt ty h72]
    exact ⟨rfl, rfl⟩

/-- C7 witness: scheduling 7200 against a store whose task 1 exists makes the
projected entry appear exactly once in the queue, and the row is persisted. -/
theorem C7_witness :
    (schedule_task_reminder initialState exDbOneTask 0 1 10 7200
      "deadline").2.1.reminders =
      exDbOneTask.reminders ++ [⟨3, 1, 10, 7200, "deadline", false⟩] ∧
    (schedule_task_reminder initialState exDbOneTask 0 1 10 7200
      "deadline").1.reminder_queue.count
      ⟨3, 1, 10, 7200, "deadline", "task one"⟩ = 1 :=
  ⟨(C7_schedule_window initialState exDbOneTask 0 1 10 7200 "deadline").1,
   ((C7_schedule_window initialState exDbOneTask 0 1 10 7200 "deadline").2.1
      (by decide) ⟨1, 10, "task one", "active"⟩ (by decide)).2 (by decide)⟩

/-- C10: a schedule call whose fire time is within 72 hours but whose task id
has no row in the store persists the reminder row, changes nothing else in
the store's tasks, leaves the scheduler state (queue and timestamps) exactly
as it was, and raises no wake signal. -/
theorem C10_no_task_frame (s : SchedulerState) (db : Database)
    (now tid uid rt : Int) (ty : String)
    (h72 : rt - now ≤ 72 * 3600)
    (htk : Database.get_task_by_id db tid = none) :
    (schedule_task_reminder s db now tid uid rt ty).1 = s ∧
    (schedule_task_reminder s db now tid uid rt ty).2.2 = false ∧
    (schedule_task_reminder s db now tid uid rt ty).2.1.reminders =
      db.reminders ++ [⟨db.next_rowid, tid, uid, rt, ty, false⟩] ∧
    (schedule_task_reminder s db now tid uid rt ty).2.1.tasks = db.tasks := by
  rw [schedule_eq_no_task s db now tid uid rt ty h72 htk]
  exact ⟨rfl, rfl, rfl, rfl⟩

/-- C10 witness: at the concrete empty-task store the scheduler state is
unchanged and no signal is raised while the row is persisted. -/
theorem C10_witness :
    (schedule_task_reminder initialState exDbNoTasks 0 1 1 3600 "morning").1 =
      initialState ∧
    (schedule_task_reminder initialState exDbNoTasks 0 1 1 3600 "morning").2.2 =
      false :=
  ⟨(C10_no_task_frame initialState exDbNoTasks 0 1 1 3600 "morning"
      (by decide) (by decide)).1,
   (C10_no_task_frame initialState exDbNoTasks 0 1 1 3600 "morning"
      (by decide) (by decide)).2.1⟩

/-- C9 counterexample: a process whose first trigger check happens at 23:56
of day 0 (no recorded cleanup) does not clean up then — the lazy
initialisation sets `last_cleanup` to today's midnight, failing the strict
date comparison — nor at 23:59 the same day, and `check_daily_tasks` at that
instant deletes nothing even though the store holds a sent reminder well
older than 7 days (which a cleanup run would delete): the process does not
"still clean up once that day". -/
theorem C9_counterexample :
    (should_cleanup_db initialState 86160).1 = false ∧
    (should_cleanup_db { initialState with
      last_cleanup := some (Time.midnight 86160) } 86340).1 = false ∧
    (check_daily_tasks initialState exDbOldSent 86160).2.2 = 0 ∧
    (check_daily_tasks initialState exDbOldSent 86160).2.1 = exDbOldSent ∧
    (Database.delete_old_reminders exDbOldSent 86160 7).2 = 1 := by
  decide

/-- C9 (amended): the cleanup trigger fires iff the clock reads 23:55-23:59
and the calendar date of the recorded (or lazily initialised) last cleanup
strictly precedes today; with `last_cleanup` unset the trigger is false — a
late-starting process does NOT clean up on its first day, only from the next
day on; after the maintenance stage runs a triggered cleanup at `now`, the
trigger is false for every later instant of the same calendar day (at most
once per day); and the cleanup deletes exactly the store rows with
`sent = true` and fire time earlier than now minus 7 days. -/
theorem C9_cleanup_daily (s : SchedulerState) (db : Database) (now t2 : Int) :
    ((should_cleanup_db s now).1 = true ↔
      Time.hour now = 23 ∧ 55 ≤ Time.minute now ∧
      Time.day (s.last_cleanup.getD (Time.midnight now)) < Time.day now) ∧
    (s.last_cleanup = none → (should_cleanup_db s now).1 = false) ∧
    ((should_cleanup_db s now).1 = true →
      (check_daily_tasks s db now).1.last_cleanup = some now) ∧
    (Time.day t2 ≤ Time.day now →
      (should_cleanup_db { s with last_cleanup := some now } t2).1 = false) ∧
    (∀ w ∈ db.reminders,
      w ∈ (Database.delete_old_reminders db now 7).1.reminders ↔
        ¬(w.is_sent = true ∧ w.reminder_time < now - 7 * 86400)) := by
  refine ⟨?_, ?_, ?_, ?_, ?_⟩
  · unfold should_cleanup_db
    simp [Bool.and_eq_true, decide_eq_true_eq, and_assoc]
  · intro h
    unfold should_cleanup_db
    rw [h]
    simp [day_midnight]
  · intro htr
    simp only [check_daily_tasks]
    rw [step_config_last_cleanup]
    unfold step_cleanup
    rw [should_cleanup_db_congr now (step_reload_last_cleanup s db now),
      if_pos htr]
  · intro h
    have hn : ¬ Time.day now < Time.day t2 := not_lt.mpr h
    unfold should_cleanup_db
    simp [hn]
  · intro w hw
    unfold Database.delete_old_reminders
    simp only [List.mem_filter]
    constructor
    · rintro ⟨_, hp⟩
      rintro ⟨hs, ht⟩
      rw [hs] at hp
      simp at hp
      omega
    · intro hn
      refine ⟨hw, ?_⟩
      by_cases hs : w.is_sent = true
      · by_cases ht : w.reminder_time < now - 7 * 86400
        · exact absurd ⟨hs, ht⟩ hn
        · simp [hs]
          omega
      · rw [Bool.not_eq_true] at hs
        simp [hs]

/-- C9 witness: a state whose last cleanup is day 0 triggers at 23:56 of day
1; after a cleanup stamped at 86160 the trigger is false later the same
day. -/
theorem C9_witness :
    (should_cleanup_db ⟨[], none, some 100, none⟩ 172560).1 = true ∧
    (should_cleanup_db { initialState with last_cleanup := some 86160 }
      86340).1 = false :=
  ⟨(C9_cleanup_daily ⟨[], none, some 100, none⟩ exDbNoTasks 172560 0).1.mpr
      (by decide),
   (C9_cleanup_daily initialState exDbNoTasks 86160 86340).2.2.2.1 (by decide)⟩

/-- C1: the startup window query has lower bound `now`
(`reminder_time >= start_time` with `start_time = now`), so an unsent,
past-due reminder present at load time is excluded from the horizon queue:
with an active task and an unsent reminder at 96400 loaded at 100000 the
queue comes back empty and the next drain pass dispatches nothing and
changes nothing — the reminder is silently dropped, never dispatched,
contradicting the claim. -/
theorem C1_pastdue_dropped :
    (load_initial_reminders initialState exDbPastDue 100000).reminder_queue =
      [] ∧
    (∃ w ∈ exDbPastDue.reminders, w.is_sent = false ∧ w.reminder_time < 100000 ∧
      Database.get_task_by_id exDbPastDue w.task_id =
        some ⟨1, 10, "t", "active"⟩) ∧
    process_due_reminders (fun _ => true) 100000
      (load_initial_reminders initialState exDbPastDue 100000).reminder_queue
      exDbPastDue = ([], [], exDbPastDue) := by
  decide
